import Mathlib

/-!
Shallow embedding of the knapsack candidate-search library
(`services/go-chariot/knapsack-library`): the legacy entry point
`solve_knapsack` (src/knapsack_solve.cpp), its bit-packed candidate
encoder, and the structured entry point `solve_knapsack_v2_from_json`
(src/knapsack_v2.cpp) with its flat-key options parser.

External collaborators that live outside the translated sources
(CSV loading from InputModule.h, haversine from RouteUtils.h, the
constants from Constants.h, the mt19937 bit stream, and the v2 engine
LoadConfigFromJsonString / BuildHostSoA / SolveBeamSelect) are modelled
as explicit parameters (`Env`, `V2Oracle`): the theorems quantify over
them, so they hold for every behaviour of the missing parts unless a
hypothesis marked `Modelled from the spec` is stated.
-/

set_option maxRecDepth 100000

namespace Knapsack

/-! ## Lane packing (knapsack_solve.cpp, `set_lane` lambda lines 66-71 and
the decode loop lines 116-124). A candidate stores one 2-bit lane per
item; the flat candidate array is modelled as a byte-valued function. -/

/-- Bytes per candidate: `(num_items + 3) / 4` (2 bits per item),
knapsack_solve.cpp line 52. -/
def bytes_per_cand (num_items : ℕ) : ℕ := (num_items + 3) / 4

/-- The `set_lane` lambda: write the 2-bit lane of `item` in candidate `c`.
`byteIdx = c * bytes_per_cand + (item >> 2)`, `shift = (item & 3) * 2`,
`cand[byteIdx] = (cand[byteIdx] & ~mask) | ((lane & 3) << shift)`. -/
def set_lane (bpc : ℕ) (cand : ℕ → ℕ) (c item lane : ℕ) : ℕ → ℕ :=
  fun j =>
    if j = c * bpc + item / 4 then
      (cand (c * bpc + item / 4) &&& (255 ^^^ (3 <<< (item % 4 * 2))))
        ||| ((lane &&& 3) <<< (item % 4 * 2))
    else cand j

/-- The decode read in the best-candidate loop:
`lane = (cand[byteIdx] >> shift) & 0x3`. -/
def get_lane (bpc : ℕ) (cand : ℕ → ℕ) (c item : ℕ) : ℕ :=
  (cand (c * bpc + item / 4) >>> (item % 4 * 2)) &&& 3

/-- Write a whole lane list for candidate `c`, items `start, start+1, ...`,
in increasing item order exactly as the generation loop does. -/
def encodeFrom (bpc : ℕ) (cand : ℕ → ℕ) (c start : ℕ) : List ℕ → (ℕ → ℕ)
  | [] => cand
  | l :: rest => encodeFrom bpc (set_lane bpc cand c start l) c (start + 1) rest

/-! ## Candidate generation (knapsack_solve.cpp lines 72-81).
`bit(rng)` outcomes are modelled as an explicit boolean stream; each item
consumes one draw. -/

/-- One generation step's running-load update, shared between the lane
list and the running-load trace so the two stay in lock step. -/
def crewStep (cap crew w : ℤ) (b : Bool) : ℤ :=
  let drawn : ℕ := if b then 1 else 0
  let lane : ℕ := if drawn = 1 ∧ crew + w > cap then 0 else drawn
  if lane = 1 then crew + w else crew

/-- The inner item loop of candidate generation: for each (weight, drawn
bit) pair, `lane = bit ? 1 : 0`; if `lane == 1 && approxCrew + w > cap`
the lane is forced back to 0; a kept lane 1 adds its weight to the
running load. -/
def genLanes (cap : ℤ) : List (ℤ × Bool) → ℤ → List ℕ
  | [], _ => []
  | (w, b) :: rest, crew =>
    let drawn : ℕ := if b then 1 else 0
    let lane : ℕ := if drawn = 1 ∧ crew + w > cap then 0 else drawn
    lane :: genLanes cap rest (crewStep cap crew w b)

/-- Running load after the first `i` generation steps (prefix trace of
`approxCrew`). -/
def crewAfter (cap : ℤ) : List (ℤ × Bool) → ℤ → ℤ
  | [], crew => crew
  | (w, b) :: rest, crew => crewAfter cap rest (crewStep cap crew w b)

/-- Total weight of the items assigned lane 1 in a lane list. -/
def selWeight : List ℕ → List ℤ → ℤ
  | 1 :: ls, w :: ws => w + selWeight ls ws
  | _ :: ls, _ :: ws => selWeight ls ws
  | _, _ => 0

/-- The `num_items` successive draws consumed by one candidate,
starting at stream position `start`. -/
def bitsFor (stream : ℕ → Bool) (start n : ℕ) : List Bool :=
  (List.range n).map (fun i => stream (start + i))

/-- One candidate's lane list: fresh `approxCrew = 0`, one draw per item. -/
def genCandidate (stream : ℕ → Bool) (start : ℕ) (ws : List ℤ) (cap : ℤ) :
    List ℕ :=
  genLanes cap (ws.zip (bitsFor stream start ws.length)) 0

/-- The candidate batch of the generation loop (`num_candidates`
candidates, candidate `c` consuming draws
`start + c * num_items .. start + (c+1) * num_items - 1`). -/
def genBatch (stream : ℕ → Bool) (start : ℕ) (ws : List ℤ) (cap : ℤ)
    (numCand : ℕ) : List (List ℕ) :=
  (List.range numCand).map
    (fun c => genCandidate stream (start + c * ws.length) ws cap)

/-! ## Legacy entry point `solve_knapsack` (knapsack_solve.cpp lines 24-194).
The build in scope is the linux-cpu one, so the Metal blocks are compiled
out: `used_metal` is always false and the CPU greedy fallback decodes
each block. -/

/-- One row of the entity catalog (the fields of `Entity` that
knapsack_solve.cpp reads). -/
structure Entity where
  name : String
  priority : ℤ
  resourceUnits : ℤ
  latitude : ℚ
  longitude : ℚ
deriving Inhabited, DecidableEq

/-- External collaborators of knapsack_solve.cpp that are declared in
headers whose implementations are not part of the translated sources:
the CSV loader (InputModule.h), `haversine` (RouteUtils.h), the
Constants.h values, the mt19937/uniform_int_distribution draw stream
(seed ↦ draw index ↦ bit), and whether an allocation during solution
construction throws `bad_alloc`. -/
structure Env where
  load : String → Except String (List Entity)
  haversine : ℚ → ℚ → ℚ → ℚ → ℚ
  maxUnits : ℤ
  garageLat : ℚ
  garageLon : ℚ
  fieldLat : ℚ
  fieldLon : ℚ
  gasPrice : ℚ
  kmPerLiter : ℚ
  mtStream : ℕ → ℕ → Bool
  allocFails : Bool

/-- The fixed legacy PRNG seed: `std::mt19937 rng(12345)`,
knapsack_solve.cpp line 38. -/
def legacySeed : ℕ := 12345

/-- `num_candidates = 64`, knapsack_solve.cpp line 51. -/
def numCandidates : ℕ := 64

/-- Block formation (lines 43-46): up to 15 indices `i ≥ cursor` with
`!picked[i] && entities[i].resourceUnits > 0`, in increasing order. -/
def buildBlock (picked : List Bool) (entities : List Entity) (cursor : ℕ) :
    List ℕ :=
  (((List.range entities.length).drop cursor).filter
    (fun i => !(picked.getD i false) ∧ (entities.getD i default).resourceUnits > 0)).take 15

/-- The CPU greedy fallback (lines 126-130): push block members while
`crew < MAX_UNITS_PER_GROUP`, accumulating `max(0, resourceUnits)`.
Returns the trip and the final crew. -/
def greedyTrip (entities : List Entity) (cap : ℤ) :
    List ℕ → ℤ → (List ℕ × ℤ)
  | [], crew => ([], crew)
  | i :: rest, crew =>
    if crew < cap then
      let crew2 := crew + max 0 (entities.getD i default).resourceUnits
      let t := greedyTrip entities cap rest crew2
      (i :: t.1, t.2)
    else ([], crew)

/-- Mark every trip member as picked (`picked[idx] = 1`, line 134). -/
def markPicked (picked : List Bool) (trip : List ℕ) : List Bool :=
  trip.foldl (fun p i => p.set i true) picked

/-- Advance the cursor past picked entities (line 139), with enough fuel
to scan the whole list. -/
def advanceFrom (picked : List Bool) : ℕ → ℕ → ℕ
  | 0, c => c
  | f + 1, c =>
    if c < picked.length ∧ picked.getD c false then advanceFrom picked f (c + 1)
    else c

/-- State threaded through the while loop of lines 41-140. -/
structure LoopState where
  picked : List Bool
  trips : List (List ℕ)
  cursor : ℕ
  remaining : ℤ
  rngIdx : ℕ

/-- The while loop (lines 41-140) on the CPU path. Each iteration that
does not break picks at least one previously unpicked entity, so
`entities.length + 1` units of fuel always suffice; the candidate batch
is generated (consuming 64 * num_items draws) and then unused because
the accelerator is absent on this target. -/
def solveLoop (maxUnits : ℤ) (stream : ℕ → Bool) (entities : List Entity) :
    ℕ → LoopState → List (List ℕ)
  | 0, st => st.trips
  | fuel + 1, st =>
    if st.remaining > 0 ∧ st.cursor < entities.length then
      let block := buildBlock st.picked entities st.cursor
      if block = [] then st.trips
      else
        let ws := block.map (fun i => max 0 (entities.getD i default).resourceUnits)
        let _cand := genBatch stream st.rngIdx ws maxUnits numCandidates
        let tc := greedyTrip entities maxUnits block 0
        if tc.1 = [] then st.trips
        else
          let picked2 := markPicked st.picked tc.1
          solveLoop maxUnits stream entities fuel
            { picked := picked2
              trips := st.trips ++ [tc.1]
              cursor := advanceFrom picked2 (picked2.length + 1) st.cursor
              remaining := st.remaining - tc.2
              rngIdx := st.rngIdx + numCandidates * block.length }
    else st.trips

/-- One `GroupTrip` of the output struct (knapsack_cpu.h lines 8-14). -/
structure GroupTrip where
  group_id : ℤ
  item_names : String
  distance : ℚ
  cost : ℚ
  units : ℤ
deriving DecidableEq

/-- The `KnapsackSolution` output struct (knapsack_cpu.h lines 16-22). -/
structure KnapsackSolution where
  trips : List GroupTrip
  num_trips : ℕ
  total_units : ℤ
  shortfall : ℤ
  total_cost : ℚ
deriving DecidableEq

/-- Route distance of one trip (lines 159-175): garage → stops in order
→ field → garage, via `haversine`. -/
def chainDistance (env : Env) (entities : List Entity) (trip : List ℕ) : ℚ :=
  let step := trip.foldl
    (fun (acc : ℚ × ℚ × ℚ) i =>
      let v := entities.getD i default
      (acc.1 + env.haversine acc.2.1 acc.2.2 v.latitude v.longitude,
        v.latitude, v.longitude))
    (0, env.garageLat, env.garageLon)
  step.1 + env.haversine step.2.1 step.2.2 env.fieldLat env.fieldLon
    + env.haversine env.fieldLat env.fieldLon env.garageLat env.garageLon

/-- Conversion of one trip to a `GroupTrip` (lines 156-186):
comma-separated names, route distance, `cost = distance *
(GAS_PRICE_PER_LITER / KM_PER_LITER)`, crew = Σ max(0, resourceUnits). -/
def mkTrip (env : Env) (entities : List Entity) (ti : ℕ) (trip : List ℕ) :
    GroupTrip :=
  let d := chainDistance env entities trip
  { group_id := (ti : ℤ) + 1
    item_names := String.intercalate "," (trip.map (fun i => (entities.getD i default).name))
    distance := d
    cost := d * (env.gasPrice / env.kmPerLiter)
    units := (trip.map (fun i => max 0 (entities.getD i default).resourceUnits)).sum }

/-- Conversion of the trips list to the output struct (lines 149-190):
`total_units` accumulates each trip's units and
`shortfall = max(0, target_team_size - total_units)`. -/
def convertTrips (env : Env) (entities : List Entity)
    (trips : List (List ℕ)) (target : ℤ) : KnapsackSolution :=
  let gts := trips.enum.map (fun p => mkTrip env entities p.1 p.2)
  { trips := gts
    num_trips := trips.length
    total_units := (gts.map GroupTrip.units).sum
    shortfall := max 0 (target - (gts.map GroupTrip.units).sum)
    total_cost := (gts.map GroupTrip.cost).sum }

/-- The body of `solve_knapsack` inside the try block: `.error` marks an
exception travelling up to the catch-all handler, `.ok none` a plain
null return. -/
def solve_knapsack_body (env : Env) (csv_path : Option String) (target : ℤ) :
    Except String (Option KnapsackSolution) :=
  match csv_path with
  | none => .ok none
  | some path =>
    match env.load path with
    | .error e => .error e
    | .ok entities =>
      if entities.isEmpty then .ok none
      else
        let stream := env.mtStream legacySeed
        let trips := solveLoop env.maxUnits stream entities (entities.length + 1)
          { picked := List.replicate entities.length false
            trips := []
            cursor := 0
            remaining := max 0 target
            rngIdx := 0 }
        if env.allocFails then .error "bad_alloc"
        else .ok (some (convertTrips env entities trips target))

/-- `solve_knapsack` (lines 24-194): the whole body sits in a
`try ... catch (...) { return nullptr; }`, so an escaping exception
becomes a null result at the boundary. -/
def solve_knapsack (env : Env) (csv_path : Option String) (target : ℤ) :
    Option KnapsackSolution :=
  match solve_knapsack_body env csv_path target with
  | .ok r => r
  | .error _ => none

/-! ## Flat-key options parsing (knapsack_v2.cpp lines 26-49):
`std::string::find` of the quoted key, then of ":", skip `isspace`,
then `strtod` (number) or a "true"/"false" literal compare. -/

/-- The C `isspace` set in the default locale. -/
def isSpaceC (c : Char) : Bool :=
  c = ' ' || c = '\t' || c = '\n' || c = Char.ofNat 11 || c = Char.ofNat 12 || c = '\r'

/-- Drop leading `isspace` characters (the `while (pos < s.size() &&
isspace(s[pos])) ++pos;` loop). -/
def dropSpacesC : List Char → List Char
  | [] => []
  | c :: r => if isSpaceC c then dropSpacesC r else c :: r

/-- Whether `needle` occurs at the head of `hay`. -/
def matchesAt : List Char → List Char → Bool
  | [], _ => true
  | _ :: _, [] => false
  | n :: ns, h :: hs => n == h && matchesAt ns hs

/-- `std::string::find`: first position where `needle` occurs. -/
def findSub (needle : List Char) : List Char → Option ℕ
  | [] => if matchesAt needle [] then some 0 else none
  | c :: r =>
    if matchesAt needle (c :: r) then some 0
    else (findSub needle r).map (· + 1)

/-- `std::string::find(needle, pos)`. -/
def findFrom (needle hay : List Char) (pos : ℕ) : Option ℕ :=
  (findSub needle (hay.drop pos)).map (· + pos)

/-- Digit span of a character list. -/
def spanDigits : List Char → (List Char × List Char)
  | [] => ([], [])
  | c :: r =>
    if c.isDigit then
      let t := spanDigits r
      (c :: t.1, t.2)
    else ([], c :: r)

/-- Decimal value of a digit list. -/
def natOfDigits (ds : List Char) : ℕ :=
  ds.foldl (fun a c => 10 * a + (c.toNat - 48)) 0

/-- `strtod` on the decimal forms the options values take (optional
sign, digits with optional fraction, optional exponent); the result is
kept exact in ℚ. Hexadecimal, infinity and NaN forms are not modelled.
`none` is the `endp == start` failure. A dangling exponent marker is
backtracked over, as `strtod` does. -/
def strtodQ (cs : List Char) : Option ℚ :=
  let cs0 := dropSpacesC cs
  let sg : ℚ × List Char :=
    match cs0 with
    | '-' :: r => (-1, r)
    | '+' :: r => (1, r)
    | r => (1, r)
  let ip := spanDigits sg.2
  let fp : List Char × List Char :=
    match ip.2 with
    | '.' :: r => spanDigits r
    | r => ([], r)
  if ip.1 = [] ∧ fp.1 = [] then none
  else
    let base : ℚ :=
      sg.1 * ((natOfDigits ip.1 : ℚ) + (natOfDigits fp.1 : ℚ) / (10 : ℚ) ^ fp.1.length)
    match fp.2 with
    | 'e' :: r =>
      match
        (match r with
          | '-' :: rr => ((-1 : ℤ), rr)
          | '+' :: rr => (1, rr)
          | rr => (1, rr)) with
      | (es, r1) =>
        let ed := spanDigits r1
        if ed.1 = [] then some base
        else some (if es = 1 then base * (10 : ℚ) ^ natOfDigits ed.1
          else base / (10 : ℚ) ^ natOfDigits ed.1)
    | 'E' :: r =>
      match
        (match r with
          | '-' :: rr => ((-1 : ℤ), rr)
          | '+' :: rr => (1, rr)
          | rr => (1, rr)) with
      | (es, r1) =>
        let ed := spanDigits r1
        if ed.1 = [] then some base
        else some (if es = 1 then base * (10 : ℚ) ^ natOfDigits ed.1
          else base / (10 : ℚ) ^ natOfDigits ed.1)
    | _ => some base

/-- `parse_number_after` (knapsack_v2.cpp lines 26-38). -/
def parse_number_after (s key : List Char) : Option ℚ :=
  match findFrom key s 0 with
  | none => none
  | some pos =>
    match findFrom [':'] s pos with
    | none => none
    | some p2 => strtodQ (dropSpacesC (s.drop (p2 + 1)))

/-- `parse_bool_after` (knapsack_v2.cpp lines 40-49). -/
def parse_bool_after (s key : List Char) : Option Bool :=
  match findFrom key s 0 with
  | none => none
  | some pos =>
    match findFrom [':'] s pos with
    | none => none
    | some p2 =>
      let rest := dropSpacesC (s.drop (p2 + 1))
      if matchesAt "true".toList rest then some true
      else if matchesAt "false".toList rest then some false
      else none

/-- Truncation toward zero, the C `(int)` conversion of an in-range
double. -/
def cIntOfQ (q : ℚ) : ℤ := q.num / (q.den : ℤ)

/-- The C `(unsigned int)` conversion, modelled for in-range values
(negative or overflowing doubles are undefined behaviour in the
source). -/
def cUIntOfQ (q : ℚ) : ℕ := (cIntOfQ q).toNat % 2 ^ 32

/-- `v2::SolverOptions` as read by the wrapper (the engine headers are
outside the translated sources; only the fields the wrapper writes are
modelled). -/
structure SolverOptions where
  beam_width : ℤ
  iters : ℤ
  seed : ℕ
  debug : Bool
  enable_dominance_filter : Bool
  dom_eps : ℚ
  dom_use_surrogate : Bool
deriving DecidableEq

/-- The option block of `solve_knapsack_v2_from_json` (lines 69-82):
defaults, then each recognized flat key overrides its field when its
parse succeeds; a null or empty options string leaves the defaults. -/
def parseSolverOptions (d : SolverOptions) (options_json : Option String) :
    SolverOptions :=
  match options_json with
  | none => d
  | some o =>
    if o = "" then d
    else
      let s := o.toList
      let o1 := match parse_number_after s "\"beam_width\"".toList with
        | some v => { d with beam_width := cIntOfQ v }
        | none => d
      let o2 := match parse_number_after s "\"iters\"".toList with
        | some v => { o1 with iters := cIntOfQ v }
        | none => o1
      let o3 := match parse_number_after s "\"seed\"".toList with
        | some v => { o2 with seed := cUIntOfQ v }
        | none => o2
      let o4 := match parse_bool_after s "\"debug\"".toList with
        | some b => { o3 with debug := b }
        | none => o3
      let o5 := match parse_bool_after s "\"dom_enable\"".toList with
        | some b => { o4 with enable_dominance_filter := b }
        | none => o4
      let o6 := match parse_number_after s "\"dom_eps\"".toList with
        | some v => { o5 with dom_eps := v }
        | none => o5
      match parse_bool_after s "\"dom_surrogate\"".toList with
      | some b => { o6 with dom_use_surrogate := b }
      | none => o6

/-! ## The v2 wrapper `solve_knapsack_v2_from_json`
(knapsack_v2.cpp lines 51-97). The engine calls
(`LoadConfigFromJsonString`, `BuildHostSoA`, `SolveBeamSelect`) and the
allocator live outside the translated sources and are passed in as an
oracle; the wrapper's control flow is translated literally. -/

/-- The slice of `v2::Config` the wrapper inspects (only `cfg.mode`). -/
structure V2Config where
  mode : String
deriving DecidableEq

/-- The slice of `v2::HostSoA` the wrapper inspects (`soa.count`). -/
structure HostSoA where
  count : ℕ
deriving DecidableEq

/-- The slice of `v2::BeamResult` the wrapper reads. -/
structure BeamResult where
  best_select : ℕ → Bool
  objective : ℚ
  penalty : ℚ
  total : ℚ

/-- `KnapsackSolutionV2` (knapsack_cpu.h lines 32-38). -/
structure KnapsackSolutionV2 where
  num_items : ℕ
  select : List ℤ
  objective : ℚ
  penalty : ℚ
  total : ℚ
deriving DecidableEq

/-- The external v2 engine: `none` marks the `false` return of the
corresponding C++ call, and `allocOK n` whether `alloc_solution_v2 n`
returns non-null. -/
structure V2Oracle where
  loadConfig : String → Option V2Config
  buildSoA : V2Config → Option HostSoA
  solveBeamSelect : V2Config → HostSoA → SolverOptions → Option BeamResult
  defaults : SolverOptions
  allocOK : ℕ → Bool

/-- `solve_knapsack_v2_from_json` (lines 51-97). The first component is
the return code, the second the value `*out_solution` holds at return
(meaningful when the out pointer is non-null; it is nulled on entry and
written only on success). -/
def solve_knapsack_v2_from_json (orc : V2Oracle) (outPtrNull : Bool)
    (json_config options_json : Option String) :
    ℤ × Option KnapsackSolutionV2 :=
  if outPtrNull then (-1, none)
  else
    match json_config with
    | none => (-2, none)
    | some cfgText =>
      match orc.loadConfig cfgText with
      | none => (-3, none)
      | some cfg =>
        match orc.buildSoA cfg with
        | none => (-4, none)
        | some soa =>
          if cfg.mode ≠ "select" then (-5, none)
          else
            match orc.solveBeamSelect cfg soa
              (parseSolverOptions orc.defaults options_json) with
            | none => (-6, none)
            | some r =>
              if orc.allocOK soa.count = false then (-7, none)
              else
                (0, some
                  { num_items := soa.count
                    select := (List.range soa.count).map
                      (fun i => if r.best_select i then 1 else 0)
                    objective := r.objective
                    penalty := r.penalty
                    total := r.total })

/-! ## Spec-modelled engine invariants. The v2 engine implementation
(v2/Engine.h and the v2/ sources) is not part of the translated files;
where a claim depends on its behaviour, that behaviour is stated as an
explicit hypothesis following the spec's words. -/

/-- Modelled from the spec: `SolveBeamSelect` (v2 engine, not under
src/) reports `total = objective − penalty` for every result it
produces ("total == objective − penalty for every produced solution";
the extractor "recomputes totals from the same formulas as the
evaluator"). -/
def SpecSolverTotals (orc : V2Oracle) : Prop :=
  ∀ c s o r, orc.solveBeamSelect c s o = some r →
    r.total = r.objective - r.penalty

/-- Modelled from the spec: on an empty item catalog the v2 engine (not
under src/) produces a well-defined empty result with zero objective
and zero penalty. -/
def SpecSolverEmptyZero (orc : V2Oracle) : Prop :=
  ∀ c s o r, orc.solveBeamSelect c s o = some r → s.count = 0 →
    r.objective = 0 ∧ r.penalty = 0

/-! ## Concrete fixtures used by the witness theorems. -/

/-- A single catalog row: priority 2, 3 resource units. -/
def entW : Entity := ⟨"a", 2, 3, 0, 0⟩

/-- A concrete environment: one-row catalog, capacity 10, zero
geometry, all-false draw stream, no allocation failure. -/
def envW : Env :=
  { load := fun _ => Except.ok [entW]
    haversine := fun _ _ _ _ => 0
    maxUnits := 10
    garageLat := 0
    garageLon := 0
    fieldLat := 0
    fieldLon := 0
    gasPrice := 1
    kmPerLiter := 1
    mtStream := fun _ _ => false
    allocFails := false }

/-- `envW` with a loader that throws. -/
def envLoadErr : Env := { envW with load := fun _ => Except.error "missing file" }

/-- `envW` with an empty catalog. -/
def envEmptyCatalog : Env := { envW with load := fun _ => Except.ok [] }

/-- `envW` with a draw stream that differs from `envW`'s at every seed
other than 12345 (at seed 99 it is all-true). -/
def envB99 : Env := { envW with mtStream := fun s _ => decide (s = 99) }

/-- The solution the legacy path produces on `envW` with target 5. -/
def solW : KnapsackSolution := convertTrips envW [entW] [[0]] 5

/-- Arbitrary stand-in for the v2 engine's option defaults (the real
values live outside the translated sources; no claim depends on them). -/
def optD : SolverOptions := ⟨16, 10, 0, false, false, 0, false⟩

/-- A concrete oracle: select-mode config, two items, result
(objective 5, penalty 2, total 3) selecting item 0. -/
def orcSel : V2Oracle :=
  { loadConfig := fun _ => some ⟨"select"⟩
    buildSoA := fun _ => some ⟨2⟩
    solveBeamSelect := fun _ _ _ => some ⟨fun i => decide (i = 0), 5, 2, 3⟩
    defaults := optD
    allocOK := fun _ => true }

/-- `orcSel` except the (otherwise well-formed) config carries mode
"assign". -/
def orcAssign : V2Oracle := { orcSel with loadConfig := fun _ => some ⟨"assign"⟩ }

/-- `orcSel` on an empty catalog, with the spec-modelled empty result. -/
def orcEmpty : V2Oracle :=
  { orcSel with
    buildSoA := fun _ => some ⟨0⟩
    solveBeamSelect := fun _ _ _ => some ⟨fun _ => false, 0, 0, 0⟩ }

/-- `orcSel` with a solver that differs from `orcSel`'s only at option
records with seed 999 (never produced by parsing an absent options
text). -/
def orcSelB : V2Oracle :=
  { orcSel with
    solveBeamSelect := fun _ _ o =>
      if o.seed = 999 then none
      else some ⟨fun i => decide (i = 0), 5, 2, 3⟩ }

/-- An all-true draw stream. -/
def streamTrue : ℕ → Bool := fun _ => true

/-- The zero-initialized candidate byte array. -/
def cand0 : ℕ → ℕ := fun _ => 0

/-! ## Theorems. First the bit-level facts about the 2-bit lane fields,
established once over the finite byte/slot/lane domain. -/

theorem lane_bits_rt : ∀ b : Fin 256, ∀ l : Fin 4, ∀ s : Fin 4,
    (((b.val &&& (255 ^^^ (3 <<< (s.val * 2)))) ||| (l.val <<< (s.val * 2)))
      >>> (s.val * 2)) &&& 3 = l.val := by decide

theorem lane_bits_other : ∀ b : Fin 256, ∀ l : Fin 4, ∀ s : Fin 4, ∀ t : Fin 4,
    s ≠ t →
    (((b.val &&& (255 ^^^ (3 <<< (s.val * 2)))) ||| (l.val <<< (s.val * 2)))
      >>> (t.val * 2)) &&& 3 = (b.val >>> (t.val * 2)) &&& 3 := by decide

theorem lane_bits_bound : ∀ b : Fin 256, ∀ l : Fin 4, ∀ s : Fin 4,
    ((b.val &&& (255 ^^^ (3 <<< (s.val * 2)))) ||| (l.val <<< (s.val * 2))) < 256 := by
  decide

theorem and_three_small : ∀ l : Fin 4, l.val &&& 3 = l.val := by decide

theorem and_three_lt (lane : ℕ) : lane &&& 3 < 4 :=
  Nat.lt_succ_of_le Nat.and_le_right

theorem and_three_eq (lane : ℕ) (h : lane < 4) : lane &&& 3 = lane :=
  and_three_small ⟨lane, h⟩

theorem get_set_same (bpc : ℕ) (cand : ℕ → ℕ) (c item lane : ℕ)
    (hl : lane < 4) (hb : cand (c * bpc + item / 4) < 256) :
    get_lane bpc (set_lane bpc cand c item lane) c item = lane := by
  have hs : item % 4 < 4 := Nat.mod_lt _ (by omega)
  have h := lane_bits_rt ⟨cand (c * bpc + item / 4), hb⟩ ⟨lane, hl⟩ ⟨item % 4, hs⟩
  simp only [get_lane, set_lane, eq_self_iff_true, if_true, and_three_eq lane hl]
  exact h

theorem get_set_other (bpc : ℕ) (cand : ℕ → ℕ) (c item item2 lane : ℕ)
    (hne : item ≠ item2) (hb : ∀ j, cand j < 256) :
    get_lane bpc (set_lane bpc cand c item2 lane) c item = get_lane bpc cand c item := by
  by_cases hidx : c * bpc + item / 4 = c * bpc + item2 / 4
  · have hdiv : item / 4 = item2 / 4 := by omega
    have hmod : item2 % 4 ≠ item % 4 := by omega
    have hs2 : item2 % 4 < 4 := Nat.mod_lt _ (by omega)
    have hs1 : item % 4 < 4 := Nat.mod_lt _ (by omega)
    have h := lane_bits_other ⟨cand (c * bpc + item2 / 4), hb _⟩
      ⟨lane &&& 3, and_three_lt lane⟩ ⟨item2 % 4, hs2⟩ ⟨item % 4, hs1⟩
      (Fin.ne_of_val_ne hmod)
    simp only [get_lane, set_lane]
    rw [if_pos hidx, hdiv]
    exact h
  · simp only [get_lane, set_lane]
    rw [if_neg hidx]

theorem set_lane_bound (bpc : ℕ) (cand : ℕ → ℕ) (c item lane : ℕ)
    (hb : ∀ j, cand j < 256) : ∀ j, set_lane bpc cand c item lane j < 256 := by
  intro j
  simp only [set_lane]
  split
  · exact lane_bits_bound ⟨cand _, hb _⟩ ⟨lane &&& 3, and_three_lt lane⟩
      ⟨item % 4, Nat.mod_lt _ (by omega)⟩
  · exact hb j

theorem encodeFrom_get_lt : ∀ (lanes : List ℕ) (bpc : ℕ) (cand : ℕ → ℕ)
    (c start item : ℕ), item < start → (∀ j, cand j < 256) →
    get_lane bpc (encodeFrom bpc cand c start lanes) c item = get_lane bpc cand c item := by
  intro lanes
  induction lanes with
  | nil => intro bpc cand c start item _ _; rfl
  | cons l rest ih =>
    intro bpc cand c start item hlt hb
    have h1 : get_lane bpc (encodeFrom bpc (set_lane bpc cand c start l) c (start + 1) rest)
        c item = get_lane bpc (set_lane bpc cand c start l) c item :=
      ih bpc _ c (start + 1) item (by omega) (set_lane_bound bpc cand c start l hb)
    calc get_lane bpc (encodeFrom bpc cand c start (l :: rest)) c item
        = get_lane bpc (set_lane bpc cand c start l) c item := h1
      _ = get_lane bpc cand c item :=
          get_set_other bpc cand c item start l (by omega) hb

theorem encodeFrom_decode : ∀ (lanes : List ℕ) (bpc : ℕ) (cand : ℕ → ℕ)
    (c start : ℕ), (∀ l ∈ lanes, l < 4) → (∀ j, cand j < 256) →
    ∀ i, i < lanes.length →
    get_lane bpc (encodeFrom bpc cand c start lanes) c (start + i) = lanes.getD i 0 := by
  intro lanes
  induction lanes with
  | nil => intro bpc cand c start _ _ i hi; simp at hi
  | cons l rest ih =>
    intro bpc cand c start hl hb i hi
    cases i with
    | zero =>
      have h1 : get_lane bpc (encodeFrom bpc (set_lane bpc cand c start l) c (start + 1) rest)
          c start = get_lane bpc (set_lane bpc cand c start l) c start :=
        encodeFrom_get_lt rest bpc _ c (start + 1) start (by omega)
          (set_lane_bound bpc cand c start l hb)
      calc get_lane bpc (encodeFrom bpc cand c start (l :: rest)) c (start + 0)
          = get_lane bpc (set_lane bpc cand c start l) c start := h1
        _ = l := get_set_same bpc cand c start l (hl l (by simp)) (hb _)
        _ = (l :: rest).getD 0 0 := rfl
    | succ i2 =>
      have hstep : start + (i2 + 1) = (start + 1) + i2 := by omega
      rw [hstep]
      have h2 : (l :: rest).getD (i2 + 1) 0 = rest.getD i2 0 := rfl
      rw [h2]
      exact ih bpc _ c (start + 1) (fun x hx => hl x (by simp [hx]))
        (set_lane_bound bpc cand c start l hb) i2 (by simpa using hi)

theorem genLanes_select : ∀ (cap : ℤ) (pairs : List (ℤ × Bool)) (crew : ℤ),
    ∀ l ∈ genLanes cap pairs crew, l = 0 ∨ l = 1 := by
  intro cap pairs
  induction pairs with
  | nil => intro crew l hl; simp [genLanes] at hl
  | cons p rest ih =>
    intro crew l hl
    obtain ⟨w, b⟩ := p
    simp only [genLanes, List.mem_cons] at hl
    rcases hl with h | h
    · subst h
      by_cases hb : b <;> by_cases hov : crew + w > cap <;> simp [hb, hov]
    · exact ih _ l h

theorem genLanes_forced : ∀ (cap : ℤ) (pairs : List (ℤ × Bool)) (crew : ℤ) (i : ℕ),
    i < pairs.length → (pairs.getD i (0, false)).2 = true →
    crewAfter cap (pairs.take i) crew + (pairs.getD i (0, false)).1 > cap →
    (genLanes cap pairs crew).getD i 0 = 0 := by
  intro cap pairs
  induction pairs with
  | nil => intro crew i hi _ _; simp at hi
  | cons p rest ih =>
    intro crew i hi hbit hover
    obtain ⟨w, b⟩ := p
    cases i with
    | zero =>
      simp only [List.getD_cons_zero] at hbit hover
      simp only [List.take_zero] at hover
      subst hbit
      have hov : crew + w > cap := hover
      simp [genLanes, hov]
    | succ i2 =>
      simp only [List.getD_cons_succ] at hbit hover
      simp only [List.take_succ_cons] at hover
      show (genLanes cap rest (crewStep cap crew w b)).getD i2 0 = 0
      exact ih (crewStep cap crew w b) i2 (by simpa using hi) hbit hover

theorem crewStep_le (cap crew w : ℤ) (b : Bool) (h : crew ≤ cap) :
    crewStep cap crew w b ≤ cap := by
  cases b <;> by_cases hov : crew + w > cap <;> simp [crewStep, hov] <;> omega

theorem crewAfter_le : ∀ (cap : ℤ) (pairs : List (ℤ × Bool)) (crew : ℤ),
    crew ≤ cap → crewAfter cap pairs crew ≤ cap := by
  intro cap pairs
  induction pairs with
  | nil => intro crew h; exact h
  | cons p rest ih =>
    intro crew h
    obtain ⟨w, b⟩ := p
    exact ih (crewStep cap crew w b) (crewStep_le cap crew w b h)

theorem selWeight_genLanes : ∀ (cap : ℤ) (pairs : List (ℤ × Bool)) (crew : ℤ),
    crew + selWeight (genLanes cap pairs crew) (pairs.map Prod.fst) =
      crewAfter cap pairs crew := by
  intro cap pairs
  induction pairs with
  | nil => intro crew; simp [genLanes, crewAfter, selWeight]
  | cons p rest ih =>
    intro crew
    obtain ⟨w, b⟩ := p
    cases b
    · have h1 : genLanes cap ((w, false) :: rest) crew =
          0 :: genLanes cap rest crew := by simp [genLanes, crewStep]
      have h2 : crewAfter cap ((w, false) :: rest) crew =
          crewAfter cap rest crew := by simp [crewAfter, crewStep]
      rw [h1, h2, List.map_cons]
      show crew + selWeight (genLanes cap rest crew) (rest.map Prod.fst) =
        crewAfter cap rest crew
      exact ih crew
    · by_cases hov : crew + w > cap
      · have h1 : genLanes cap ((w, true) :: rest) crew =
            0 :: genLanes cap rest crew := by simp [genLanes, crewStep, hov]
        have h2 : crewAfter cap ((w, true) :: rest) crew =
            crewAfter cap rest crew := by simp [crewAfter, crewStep, hov]
        rw [h1, h2, List.map_cons]
        show crew + selWeight (genLanes cap rest crew) (rest.map Prod.fst) =
          crewAfter cap rest crew
        exact ih crew
      · have h1 : genLanes cap ((w, true) :: rest) crew =
            1 :: genLanes cap rest (crew + w) := by simp [genLanes, crewStep, hov]
        have h2 : crewAfter cap ((w, true) :: rest) crew =
            crewAfter cap rest (crew + w) := by simp [crewAfter, crewStep, hov]
        rw [h1, h2, List.map_cons]
        show crew + (w + selWeight (genLanes cap rest (crew + w)) (rest.map Prod.fst)) =
          crewAfter cap rest (crew + w)
        rw [← ih (crew + w)]
        ring

/-! ## Claim theorems for the encoder (C5, C7, C10). -/

/-- Claim C5: for every candidate of a generated batch and every item
position in it, when the drawn lane is 1 and the running load plus the
item's weight would strictly exceed the group capacity at that step,
the emitted lane is forced back to 0 (unassigned). -/
theorem c5_feasibility_bias :
    ∀ (stream : ℕ → Bool) (start : ℕ) (ws : List ℤ) (cap : ℤ) (nc c i : ℕ),
    c < nc → i < ws.length →
    stream (start + c * ws.length + i) = true →
    crewAfter cap ((ws.zip (bitsFor stream (start + c * ws.length) ws.length)).take i) 0 +
      ws.getD i 0 > cap →
    ((genBatch stream start ws cap nc).getD c []).getD i 0 = 0 := by
  intro stream start ws cap nc c i hc hi hbit hover
  have hbatch : (genBatch stream start ws cap nc).getD c [] =
      genCandidate stream (start + c * ws.length) ws cap := by
    simp [genBatch, List.getD_eq_getElem?_getD, List.getElem?_map, List.getElem?_range, hc]
  rw [hbatch]
  have hlen : (bitsFor stream (start + c * ws.length) ws.length).length = ws.length := by
    simp [bitsFor]
  have hzlen : i < (ws.zip (bitsFor stream (start + c * ws.length) ws.length)).length := by
    simp only [List.length_zip, hlen]
    omega
  have hget : (ws.zip (bitsFor stream (start + c * ws.length) ws.length)).getD i (0, false) =
      (ws.getD i 0, stream (start + c * ws.length + i)) := by
    rw [List.getD_eq_getElem _ _ hzlen, List.getElem_zip, List.getD_eq_getElem _ _ hi]
    simp [bitsFor]
  show (genLanes cap (ws.zip (bitsFor stream (start + c * ws.length) ws.length)) 0).getD i 0 = 0
  exact genLanes_forced cap _ 0 i hzlen (by rw [hget]; exact hbit) (by rw [hget]; exact hover)

/-- Witness for C5: with an all-true stream, weights [3, 4] and
capacity 5, the second item's drawn lane 1 would overfill (3 + 4 > 5)
and is forced to 0. -/
theorem c5_witness : ((genBatch streamTrue 0 [3, 4] 5 1).getD 0 []).getD 1 0 = 0 :=
  c5_feasibility_bias streamTrue 0 [3, 4] 5 1 0 1 (by decide) (by decide) (by decide)
    (by decide)

/-- Claim C7: each item occupies one 2-bit lane field; a candidate of
`n` items spans `ceil(n / 4)` bytes; select-mode generation emits only
lanes 0 and 1; a written lane field reads back exactly, and decoding a
fully encoded candidate reproduces every written lane. -/
theorem c7_lane_packing :
    (∀ n : ℕ, bytes_per_cand n = n ⌈/⌉ 4)
  ∧ (∀ (cap : ℤ) (pairs : List (ℤ × Bool)) (crew : ℤ),
      ∀ l ∈ genLanes cap pairs crew, l = 0 ∨ l = 1)
  ∧ (∀ (bpc : ℕ) (cand : ℕ → ℕ) (c item lane : ℕ), lane < 4 →
      cand (c * bpc + item / 4) < 256 →
      get_lane bpc (set_lane bpc cand c item lane) c item = lane)
  ∧ (∀ (lanes : List ℕ) (bpc : ℕ) (cand : ℕ → ℕ) (c : ℕ),
      (∀ l ∈ lanes, l < 4) → (∀ j, cand j < 256) → ∀ i, i < lanes.length →
      get_lane bpc (encodeFrom bpc cand c 0 lanes) c i = lanes.getD i 0) := by
  refine ⟨?_, genLanes_select, get_set_same, ?_⟩
  · intro n
    rw [Nat.ceilDiv_eq_add_pred_div]
    show (n + 3) / 4 = (n + 4 - 1) / 4
    congr 1
  · intro lanes bpc cand c hl hb i hi
    have h := encodeFrom_decode lanes bpc cand c 0 hl hb i hi
    simpa using h

/-- Witness for C7: 5 items span 2 bytes, and the lane list
[1, 0, 3, 2, 1] encoded from a zero candidate array reads back at
position 2 as lane 3. -/
theorem c7_witness :
    bytes_per_cand 5 = 2 ∧
    get_lane 2 (encodeFrom 2 cand0 0 0 [1, 0, 3, 2, 1]) 0 2 = 3 :=
  ⟨(c7_lane_packing.1 5).trans (by decide),
    (c7_lane_packing.2.2.2 [1, 0, 3, 2, 1] 2 cand0 0 (by decide)
      (fun _ => by simp [cand0]) 2 (by decide)).trans (by decide)⟩

/-- Claim C10: in the single-group legacy path the feasibility bias is
a strict guarantee — for a nonnegative capacity, the total weight of
the lane-1 items of every generated candidate never exceeds the
capacity, because the running load is checked against the exact item
weight before every assignment. -/
theorem c10_strict_feasibility :
    ∀ (stream : ℕ → Bool) (start : ℕ) (ws : List ℤ) (cap : ℤ) (nc : ℕ),
    0 ≤ cap → ∀ lanes ∈ genBatch stream start ws cap nc,
    selWeight lanes ws ≤ cap := by
  intro stream start ws cap nc hcap lanes hmem
  simp only [genBatch, List.mem_map, List.mem_range] at hmem
  obtain ⟨c, _, hcand⟩ := hmem
  subst hcand
  have hlenb : ws.length ≤ (bitsFor stream (start + c * ws.length) ws.length).length := by
    simp [bitsFor]
  have hfst : (ws.zip (bitsFor stream (start + c * ws.length) ws.length)).map Prod.fst = ws :=
    List.map_fst_zip ws _ hlenb
  show selWeight (genLanes cap (ws.zip (bitsFor stream (start + c * ws.length) ws.length)) 0)
    ws ≤ cap
  have hsel := selWeight_genLanes cap
    (ws.zip (bitsFor stream (start + c * ws.length) ws.length)) 0
  rw [hfst] at hsel
  have hle := crewAfter_le cap
    (ws.zip (bitsFor stream (start + c * ws.length) ws.length)) 0 hcap
  omega

/-- Witness for C10: all-true stream, weights [3, 4, 5], capacity 6 —
the first batch candidate selects only the first item and its selected
weight stays within the capacity. -/
theorem c10_witness :
    selWeight ((genBatch streamTrue 0 [3, 4, 5] 6 2).getD 0 []) [3, 4, 5] ≤ 6 :=
  c10_strict_feasibility streamTrue 0 [3, 4, 5] 6 2 (by decide) _ (by decide)

/-! ## Claim theorems for the legacy entry point (C3, C8, C6). -/

/-- Claim C3: `solve_knapsack` returns null for a null CSV path, for a
loader exception, for an empty entity list, and for an internal
exception during computation (modelled by a failing allocation); no
exception escapes the boundary — every outcome is an `Option` value. -/
theorem c3_null_on_failure :
    ∀ (env : Env) (target : ℤ),
    (solve_knapsack env none target = none)
  ∧ (∀ p e, env.load p = Except.error e → solve_knapsack env (some p) target = none)
  ∧ (∀ p, env.load p = Except.ok [] → solve_knapsack env (some p) target = none)
  ∧ (env.allocFails = true → ∀ p, solve_knapsack env (some p) target = none) := by
  intro env target
  refine ⟨rfl, ?_, ?_, ?_⟩
  · intro p e h
    simp [solve_knapsack, solve_knapsack_body, h]
  · intro p h
    simp [solve_knapsack, solve_knapsack_body, h]
  · intro ha p
    cases hl : env.load p with
    | error e => simp [solve_knapsack, solve_knapsack_body, hl]
    | ok entities =>
      by_cases he : entities.isEmpty
      · simp [solve_knapsack, solve_knapsack_body, hl, he]
      · simp [solve_knapsack, solve_knapsack_body, hl, he, ha]

/-- Witness for C3: a throwing loader and an empty catalog both yield a
null result. -/
theorem c3_witness :
    solve_knapsack envLoadErr (some "f.csv") 5 = none ∧
    solve_knapsack envEmptyCatalog (some "g.csv") 5 = none :=
  ⟨(c3_null_on_failure envLoadErr 5).2.1 "f.csv" "missing file" rfl,
    (c3_null_on_failure envEmptyCatalog 5).2.2.1 "g.csv" rfl⟩

/-- Claim C8: every non-null legacy solution reports
`shortfall = max(0, target_team_size − total_units)` with `total_units`
the sum of the units of its trips. -/
theorem c8_shortfall :
    ∀ (env : Env) (csv : Option String) (target : ℤ) (sol : KnapsackSolution),
    solve_knapsack env csv target = some sol →
    sol.shortfall = max 0 (target - sol.total_units) ∧
    sol.total_units = (sol.trips.map GroupTrip.units).sum := by
  intro env csv target sol h
  cases csv with
  | none => simp [solve_knapsack, solve_knapsack_body] at h
  | some p =>
    cases hl : env.load p with
    | error e => simp [solve_knapsack, solve_knapsack_body, hl] at h
    | ok entities =>
      by_cases he : entities.isEmpty
      · simp [solve_knapsack, solve_knapsack_body, hl, he] at h
      · by_cases ha : env.allocFails
        · simp [solve_knapsack, solve_knapsack_body, hl, he, ha] at h
        · simp [solve_knapsack, solve_knapsack_body, hl, he, ha] at h
          subst h
          exact ⟨rfl, rfl⟩

/-- Witness for C8: the concrete run on `envW` with target 5 reports
shortfall max(0, 5 − 3) = 2. -/
theorem c8_witness :
    solW.shortfall = max 0 (5 - solW.total_units) ∧
    solW.total_units = (solW.trips.map GroupTrip.units).sum :=
  c8_shortfall envW (some "f.csv") 5 solW (by rfl)

/-- Counterexample for C6: the claim says an empty catalog yields a
well-defined empty solution for the solve entry points, but the legacy
entry point returns null (no solution value at all) on an empty
catalog. -/
theorem c6_counterexample :
    solve_knapsack envEmptyCatalog (some "catalog.csv") 7 = none := rfl

/-- Claim C6 (amended): an empty or zero-item catalog never faults:
the legacy entry point signals it with a null result (its documented
missing/empty-input signal) rather than an empty solution, while the
structured entry point succeeds with an empty solution carrying zero
objective and zero penalty (engine behaviour on an empty catalog
modelled from the spec). -/
theorem c6_empty_catalog :
    (∀ (env : Env) (p : String) (target : ℤ), env.load p = Except.ok [] →
      solve_knapsack env (some p) target = none)
  ∧ (∀ (orc : V2Oracle) (cfgT : String) (optT : Option String) (sol : KnapsackSolutionV2),
      SpecSolverEmptyZero orc →
      (∀ c s, orc.buildSoA c = some s → s.count = 0) →
      solve_knapsack_v2_from_json orc false (some cfgT) optT = (0, some sol) →
      sol.num_items = 0 ∧ sol.select = [] ∧ sol.objective = 0 ∧ sol.penalty = 0) := by
  constructor
  · intro env p target h
    simp [solve_knapsack, solve_knapsack_body, h]
  · intro orc cfgT optT sol hzero hcount heq
    cases hcfg : orc.loadConfig cfgT with
    | none => simp [solve_knapsack_v2_from_json, hcfg] at heq
    | some cfg =>
      cases hsoa : orc.buildSoA cfg with
      | none => simp [solve_knapsack_v2_from_json, hcfg, hsoa] at heq
      | some soa =>
        by_cases hm : cfg.mode = "select"
        · cases hr : orc.solveBeamSelect cfg soa (parseSolverOptions orc.defaults optT) with
          | none => simp [solve_knapsack_v2_from_json, hcfg, hsoa, hm, hr] at heq
          | some r =>
            cases hal : orc.allocOK soa.count with
            | false => simp [solve_knapsack_v2_from_json, hcfg, hsoa, hm, hr, hal] at heq
            | true =>
              have hc0 : soa.count = 0 := hcount cfg soa hsoa
              have hrz := hzero cfg soa (parseSolverOptions orc.defaults optT) r hr hc0
              simp [solve_knapsack_v2_from_json, hcfg, hsoa, hm, hr, hal] at heq
              subst heq
              exact ⟨hc0, by simp [hc0], hrz.1, hrz.2⟩
        · simp [solve_knapsack_v2_from_json, hcfg, hsoa, hm] at heq

/-- Witness for the amended C6: empty legacy catalog gives null; the
zero-item structured run succeeds with the all-zero empty solution. -/
theorem c6_witness :
    solve_knapsack envEmptyCatalog (some "e.csv") 3 = none ∧
    ((⟨0, [], 0, 0, 0⟩ : KnapsackSolutionV2).num_items = 0 ∧
      (⟨0, [], 0, 0, 0⟩ : KnapsackSolutionV2).select = [] ∧
      (⟨0, [], 0, 0, 0⟩ : KnapsackSolutionV2).objective = 0 ∧
      (⟨0, [], 0, 0, 0⟩ : KnapsackSolutionV2).penalty = 0) :=
  ⟨c6_empty_catalog.1 envEmptyCatalog "e.csv" 3 rfl,
    c6_empty_catalog.2 orcEmpty "cfg" none ⟨0, [], 0, 0, 0⟩
      (fun _ _ _ r hr _ => by cases hr; exact ⟨rfl, rfl⟩)
      (fun _ s hs => by cases hs; rfl)
      (by rfl)⟩

/-! ## Claim theorems for the structured entry point (C1, C2, C9). -/

/-- Claim C1: the return codes of `solve_knapsack_v2_from_json`
enumerate the failures exactly as specified, in the order the wrapper
checks them: −1 null out pointer, −2 null config text, −3 config
parse/validation failure, −4 catalog construction failure, −5
unsupported mode on an otherwise well-formed config (distinct from −3),
−6 solver failure, −7 allocation failure, 0 success. -/
theorem c1_return_codes (orc : V2Oracle) (cfgT optT : Option String) :
    ((solve_knapsack_v2_from_json orc true cfgT optT).1 = -1)
  ∧ ((solve_knapsack_v2_from_json orc false none optT).1 = -2)
  ∧ (∀ t, cfgT = some t →
      ((orc.loadConfig t = none →
        (solve_knapsack_v2_from_json orc false cfgT optT).1 = -3)
      ∧ (∀ cfg, orc.loadConfig t = some cfg →
        ((orc.buildSoA cfg = none →
          (solve_knapsack_v2_from_json orc false cfgT optT).1 = -4)
        ∧ (∀ soa, orc.buildSoA cfg = some soa →
          ((cfg.mode ≠ "select" →
            (solve_knapsack_v2_from_json orc false cfgT optT).1 = -5)
          ∧ (cfg.mode = "select" →
            ((orc.solveBeamSelect cfg soa (parseSolverOptions orc.defaults optT) = none →
              (solve_knapsack_v2_from_json orc false cfgT optT).1 = -6)
            ∧ (∀ r,
                orc.solveBeamSelect cfg soa (parseSolverOptions orc.defaults optT) = some r →
              ((orc.allocOK soa.count = false →
                (solve_knapsack_v2_from_json orc false cfgT optT).1 = -7)
              ∧ (orc.allocOK soa.count = true →
                solve_knapsack_v2_from_json orc false cfgT optT = (0, some
                  { num_items := soa.count
                    select := (List.range soa.count).map
                      (fun i => if r.best_select i then 1 else 0)
                    objective := r.objective
                    penalty := r.penalty
                    total := r.total })))))))))))) := by
  refine ⟨rfl, rfl, ?_⟩
  rintro t rfl
  constructor
  · intro h
    simp [solve_knapsack_v2_from_json, h]
  · intro cfg hcfg
    constructor
    · intro h
      simp [solve_knapsack_v2_from_json, hcfg, h]
    · intro soa hsoa
      constructor
      · intro hm
        simp [solve_knapsack_v2_from_json, hcfg, hsoa, hm]
      · intro hm
        constructor
        · intro h
          simp [solve_knapsack_v2_from_json, hcfg, hsoa, hm, h]
        · intro r hr
          constructor
          · intro h
            simp [solve_knapsack_v2_from_json, hcfg, hsoa, hm, hr, h]
          · intro h
            simp [solve_knapsack_v2_from_json, hcfg, hsoa, hm, hr, h]

/-- Witness for C1: a well-formed config whose mode is "assign" yields
the specific code −5. -/
theorem c1_witness :
    (solve_knapsack_v2_from_json orcAssign false (some "cfg") none).1 = -5 :=
  ((((c1_return_codes orcAssign (some "cfg") none).2.2 "cfg" rfl).2 ⟨"assign"⟩ rfl).2
    ⟨2⟩ rfl).1 (by decide)

/-- Every wrapper outcome is either success or carries a null out
solution (the out pointer is nulled on entry and written only on the
success path). -/
theorem v2_shape (orc : V2Oracle) (outN : Bool) (cfgT optT : Option String) :
    (solve_knapsack_v2_from_json orc outN cfgT optT).1 = 0 ∨
    (solve_knapsack_v2_from_json orc outN cfgT optT).2 = none := by
  cases outN with
  | true => exact Or.inr rfl
  | false =>
    cases cfgT with
    | none => exact Or.inr rfl
    | some t =>
      cases hcfg : orc.loadConfig t with
      | none => simp [solve_knapsack_v2_from_json, hcfg]
      | some cfg =>
        cases hsoa : orc.buildSoA cfg with
        | none => simp [solve_knapsack_v2_from_json, hcfg, hsoa]
        | some soa =>
          by_cases hm : cfg.mode = "select"
          · cases hr : orc.solveBeamSelect cfg soa (parseSolverOptions orc.defaults optT) with
            | none => simp [solve_knapsack_v2_from_json, hcfg, hsoa, hm, hr]
            | some r =>
              cases hal : orc.allocOK soa.count with
              | false => simp [solve_knapsack_v2_from_json, hcfg, hsoa, hm, hr, hal]
              | true => simp [solve_knapsack_v2_from_json, hcfg, hsoa, hm, hr, hal]
          · simp [solve_knapsack_v2_from_json, hcfg, hsoa, hm]

/-- Claim C9: whenever the wrapper is called with a non-null out
pointer and returns a nonzero code, the out solution is left null. -/
theorem c9_no_partial_solution :
    ∀ (orc : V2Oracle) (cfgT optT : Option String) (code : ℤ)
      (sol : Option KnapsackSolutionV2),
    solve_knapsack_v2_from_json orc false cfgT optT = (code, sol) →
    code ≠ 0 → sol = none := by
  intro orc cfgT optT code sol heq hne
  have h := v2_shape orc false cfgT optT
  rw [heq] at h
  rcases h with h | h
  · exact absurd h hne
  · exact h

/-- Witness for C9: a null config text returns −2 and leaves the out
solution null. -/
theorem c9_witness : (solve_knapsack_v2_from_json orcSel false none none).2 = none :=
  c9_no_partial_solution orcSel none none (-2)
    (solve_knapsack_v2_from_json orcSel false none none).2 (by rfl) (by decide)

/-- Claim C2: for every success of the wrapper, the reported fields are
copied verbatim from the solver's result (no drift), and — with the
spec-modelled engine invariant — `total = objective − penalty`. -/
theorem c2_totals :
    ∀ (orc : V2Oracle) (outN : Bool) (cfgT optT : Option String)
      (sol : KnapsackSolutionV2),
    SpecSolverTotals orc →
    solve_knapsack_v2_from_json orc outN cfgT optT = (0, some sol) →
    sol.total = sol.objective - sol.penalty ∧
    ∃ cfg soa r,
      orc.solveBeamSelect cfg soa (parseSolverOptions orc.defaults optT) = some r ∧
      sol.objective = r.objective ∧ sol.penalty = r.penalty ∧ sol.total = r.total := by
  intro orc outN cfgT optT sol hspec heq
  cases outN with
  | true => simp [solve_knapsack_v2_from_json] at heq
  | false =>
    cases cfgT with
    | none => simp [solve_knapsack_v2_from_json] at heq
    | some t =>
      cases hcfg : orc.loadConfig t with
      | none => simp [solve_knapsack_v2_from_json, hcfg] at heq
      | some cfg =>
        cases hsoa : orc.buildSoA cfg with
        | none => simp [solve_knapsack_v2_from_json, hcfg, hsoa] at heq
        | some soa =>
          by_cases hm : cfg.mode = "select"
          · cases hr : orc.solveBeamSelect cfg soa (parseSolverOptions orc.defaults optT) with
            | none => simp [solve_knapsack_v2_from_json, hcfg, hsoa, hm, hr] at heq
            | some r =>
              cases hal : orc.allocOK soa.count with
              | false => simp [solve_knapsack_v2_from_json, hcfg, hsoa, hm, hr, hal] at heq
              | true =>
                have hrt := hspec cfg soa (parseSolverOptions orc.defaults optT) r hr
                simp [solve_knapsack_v2_from_json, hcfg, hsoa, hm, hr, hal] at heq
                subst heq
                exact ⟨hrt, cfg, soa, r, hr, rfl, rfl, rfl⟩
          · simp [solve_knapsack_v2_from_json, hcfg, hsoa, hm] at heq

/-- Witness for C2: the concrete success on `orcSel` reports
total 3 = objective 5 − penalty 2. -/
theorem c2_witness :
    (⟨2, [1, 0], 5, 2, 3⟩ : KnapsackSolutionV2).total =
      (⟨2, [1, 0], 5, 2, 3⟩ : KnapsackSolutionV2).objective -
        (⟨2, [1, 0], 5, 2, 3⟩ : KnapsackSolutionV2).penalty :=
  (c2_totals orcSel false (some "cfg") none ⟨2, [1, 0], 5, 2, 3⟩
    (fun _ _ _ r hr => by cases hr; norm_num) (by rfl)).1

/-! ## Claim theorem C4: determinism and seeding. -/

theorem convertTrips_proj (l : String → Except String (List Entity))
    (hv : ℚ → ℚ → ℚ → ℚ → ℚ) (mu : ℤ) (ga go fa fo gp km : ℚ)
    (ms1 ms2 : ℕ → ℕ → Bool) (af : Bool) :
    convertTrips ⟨l, hv, mu, ga, go, fa, fo, gp, km, ms1, af⟩ =
      convertTrips ⟨l, hv, mu, ga, go, fa, fo, gp, km, ms2, af⟩ := rfl

/-- Claim C4: the legacy path seeds its PRNG with the fixed constant
12345 and its result depends on the draw stream only through that seed
(so two runs on the same input coincide); the structured path takes its
seed from the explicit "seed" option, and its result depends on the
solver only through its behaviour at the parsed options, so equal seeds
and configs give identical runs. -/
theorem c4_determinism :
    (legacySeed = 12345)
  ∧ (∀ (e1 e2 : Env) (csv : Option String) (target : ℤ),
      e1.load = e2.load → e1.haversine = e2.haversine → e1.maxUnits = e2.maxUnits →
      e1.garageLat = e2.garageLat → e1.garageLon = e2.garageLon →
      e1.fieldLat = e2.fieldLat → e1.fieldLon = e2.fieldLon →
      e1.gasPrice = e2.gasPrice → e1.kmPerLiter = e2.kmPerLiter →
      e1.allocFails = e2.allocFails →
      e1.mtStream legacySeed = e2.mtStream legacySeed →
      solve_knapsack e1 csv target = solve_knapsack e2 csv target)
  ∧ (parseSolverOptions optD (some "\x7b\"seed\": 42\x7d") = { optD with seed := 42 })
  ∧ (∀ (o1 o2 : V2Oracle) (outN : Bool) (cfgT optT : Option String),
      o1.loadConfig = o2.loadConfig → o1.buildSoA = o2.buildSoA →
      o1.defaults = o2.defaults → o1.allocOK = o2.allocOK →
      (∀ c s, o1.solveBeamSelect c s (parseSolverOptions o1.defaults optT) =
        o2.solveBeamSelect c s (parseSolverOptions o1.defaults optT)) →
      solve_knapsack_v2_from_json o1 outN cfgT optT =
        solve_knapsack_v2_from_json o2 outN cfgT optT) := by
  refine ⟨rfl, ?_, by with_unfolding_all rfl, ?_⟩
  · intro e1 e2 csv target h1 h2 h3 h4 h5 h6 h7 h8 h9 h10 h11
    obtain ⟨l1, hv1, mu1, ga1, go1, fa1, fo1, gp1, km1, ms1, af1⟩ := e1
    obtain ⟨l2, hv2, mu2, ga2, go2, fa2, fo2, gp2, km2, ms2, af2⟩ := e2
    dsimp only at h1 h2 h3 h4 h5 h6 h7 h8 h9 h10 h11
    subst h1 h2 h3 h4 h5 h6 h7 h8 h9 h10
    simp only [solve_knapsack, solve_knapsack_body]
    rw [h11, convertTrips_proj l1 hv1 mu1 ga1 go1 fa1 fo1 gp1 km1 ms1 ms2 af1]
  · intro o1 o2 outN cfgT optT h1 h2 h3 h4 h5
    obtain ⟨lc1, bs1, sb1, d1, al1⟩ := o1
    obtain ⟨lc2, bs2, sb2, d2, al2⟩ := o2
    dsimp only at h1 h2 h3 h4 h5
    subst h1 h2 h3 h4
    cases outN with
    | true => rfl
    | false =>
      cases cfgT with
      | none => rfl
      | some t =>
        cases hcfg : lc1 t with
        | none => simp [solve_knapsack_v2_from_json, hcfg]
        | some cfg =>
          cases hsoa : bs1 cfg with
          | none => simp [solve_knapsack_v2_from_json, hcfg, hsoa]
          | some soa =>
            by_cases hm : cfg.mode = "select"
            · simp only [solve_knapsack_v2_from_json, hcfg, hsoa, hm]
              rw [h5 cfg soa]
            · simp [solve_knapsack_v2_from_json, hcfg, hsoa, hm]

/-- Witness for C4: the legacy run is unchanged when the stream differs
at every seed other than 12345, and the structured run is unchanged
when the solver differs only away from the parsed options. -/
theorem c4_witness :
    solve_knapsack envW (some "f.csv") 5 = solve_knapsack envB99 (some "f.csv") 5 ∧
    solve_knapsack_v2_from_json orcSel false (some "cfg") none =
      solve_knapsack_v2_from_json orcSelB false (some "cfg") none :=
  ⟨c4_determinism.2.1 envW envB99 (some "f.csv") 5 rfl rfl rfl rfl rfl rfl rfl rfl rfl rfl
      (funext fun _ => rfl),
    c4_determinism.2.2.2 orcSel orcSelB false (some "cfg") none rfl rfl rfl rfl
      (fun _ _ => rfl)⟩

end Knapsack
